import Mathlib

/-!
Shallow embedding of `saleor/graphql/page/mutations/attributes.py`:
the `PageAttributeAssign` and `PageAttributeUnassign` mutations, which
validate a candidate set of attribute primary keys against a page type
and then add/remove pairs of the many-to-many `page_attributes` relation.

External collaborators (permission checks, global-id decoding,
`get_node_or_error`) are out of scope per the spec; the embedding takes
the already-resolved `page_type` primary key and the already-decoded
list of attribute primary keys as inputs, as `clean_attributes` and the
relation mutation do in the source.
-/

set_option autoImplicit false

namespace Saleor

/-- The `kind` classifier of an attribute (`AttributeType` in the source):
`PAGE_TYPE` is the page-type-attribute category; the others are the
remaining domain categories. -/
inductive AttributeType where
  | PAGE_TYPE
  | PRODUCT_TYPE
  deriving DecidableEq, Repr

/-- A row of the `Attribute` table: a unique identity `pk` and a `kind`
classifier `type`. -/
structure Attribute where
  pk : Nat
  type : AttributeType
  deriving DecidableEq, Repr

/-- The store visible to the two mutations: the `Attribute` table and the
many-to-many `page_attributes` relation as a list of
`(pageTypePk, attributePk)` pairs. -/
structure DB where
  attributes : List Attribute
  pageAttributes : List (Nat × Nat)
  deriving DecidableEq, Repr

/-- The error codes of `PageErrorCode` used by these mutations. -/
inductive PageErrorCode where
  | INVALID
  | ATTRIBUTE_ALREADY_ASSIGNED
  deriving DecidableEq, Repr

/-- A `ValidationError` record: message, machine-readable code and the
`params={"attributes": [...]}` list of re-encoded identifiers. -/
structure ValidationError where
  message : String
  code : PageErrorCode
  attributes : List String
  deriving DecidableEq, Repr

/-- `graphene.Node.to_global_id(typename, pk)`: re-encodes an internal key
as an opaque external identifier.  The exact encoding is an external
collaborator; we model it as the injective `typename:pk` string. -/
def to_global_id (typename : String) (pk : Nat) : String :=
  typename ++ ":" ++ toString pk

/-- `models.Attribute.objects.filter(pk__in=attr_pks).exclude(type=AttributeType.PAGE_TYPE)`:
the existing attribute rows among the candidates whose kind is not the
page-type category. -/
def invalidAttributesOf (db : DB) (attr_pks : List Nat) : List Attribute :=
  db.attributes.filter
    (fun a => decide (a.pk ∈ attr_pks ∧ a.type ≠ AttributeType.PAGE_TYPE))

/-- Modelled from the spec: `models.Attribute.objects.get_assigned_page_type_attributes(page_type.pk)`
is a manager method defined outside this excerpt; per the spec it loads
"all Attribute entities already present in `targetPageType`'s assignment
set". -/
def get_assigned_page_type_attributes (db : DB) (page_type_pk : Nat) : List Attribute :=
  db.attributes.filter (fun a => decide ((page_type_pk, a.pk) ∈ db.pageAttributes))

/-- The `.filter(pk__in=attr_pks)` refinement of the previous query: the
already-assigned attribute rows among the candidates. -/
def assignedAttrsOf (db : DB) (page_type_pk : Nat) (attr_pks : List Nat) : List Attribute :=
  (get_assigned_page_type_attributes db page_type_pk).filter
    (fun a => decide (a.pk ∈ attr_pks))

/-- The `ValidationError` built for a non-empty wrong-kind set: message
"Only page attributes can be assigned.", code `INVALID`, and the
re-encoded identifiers of the wrong-kind rows. -/
def invalid_error (db : DB) (attr_pks : List Nat) : ValidationError :=
  { message := "Only page attributes can be assigned.",
    code := PageErrorCode.INVALID,
    attributes := (invalidAttributesOf db attr_pks).map (fun a => to_global_id "Attribute" a.pk) }

/-- The `ValidationError` built for a non-empty already-assigned set:
message "Some of the attributes have been already assigned to this page
type.", code `ATTRIBUTE_ALREADY_ASSIGNED`, and the re-encoded identifiers
of the already-assigned rows. -/
def assigned_error (db : DB) (page_type_pk : Nat) (attr_pks : List Nat) : ValidationError :=
  { message := "Some of the attributes have been already assigned to this page type.",
    code := PageErrorCode.ATTRIBUTE_ALREADY_ASSIGNED,
    attributes := (assignedAttrsOf db page_type_pk attr_pks).map
      (fun a => to_global_id "Attribute" a.pk) }

namespace PageAttributeAssign

/-- `PageAttributeAssign.clean_attributes`: appends to the error report
(under key `attribute_ids`) one `INVALID` error when some candidate is an
existing non-page attribute, and one `ATTRIBUTE_ALREADY_ASSIGNED` error
when some candidate is already assigned to the page type.  The report is
passed in and returned updated, mirroring the mutated `errors` dict. -/
def clean_attributes (errors : List (String × ValidationError)) (db : DB)
    (page_type_pk : Nat) (attr_pks : List Nat) : List (String × ValidationError) :=
  let invalid_attributes := invalidAttributesOf db attr_pks
  let errors1 :=
    if invalid_attributes.isEmpty then errors
    else errors ++ [("attribute_ids", invalid_error db attr_pks)]
  let assigned_attrs := assignedAttrsOf db page_type_pk attr_pks
  if assigned_attrs.isEmpty then errors1
  else errors1 ++ [("attribute_ids", assigned_error db page_type_pk attr_pks)]

end PageAttributeAssign

/-- Django's many-to-many `add(*attr_pks)` on `page_attributes`: inserts
each missing `(page_type_pk, pk)` pair and silently skips pairs already
present (the spec's set-union semantics, duplicates collapsed). -/
def m2m_add (rel : List (Nat × Nat)) (page_type_pk : Nat) (attr_pks : List Nat) :
    List (Nat × Nat) :=
  attr_pks.foldl
    (fun r pk => if (page_type_pk, pk) ∈ r then r else r ++ [(page_type_pk, pk)]) rel

/-- Django's many-to-many `remove(*attr_pks)` on `page_attributes`: deletes
every `(page_type_pk, pk)` pair with `pk` among the candidates; removing
an absent pair is a silent no-op. -/
def m2m_remove (rel : List (Nat × Nat)) (page_type_pk : Nat) (attr_pks : List Nat) :
    List (Nat × Nat) :=
  rel.filter (fun pr => decide (¬(pr.1 = page_type_pk ∧ pr.2 ∈ attr_pks)))

namespace PageAttributeAssign

/-- `PageAttributeAssign.perform_mutation`, after the external collaborators
have resolved `page_type_id` and decoded `attribute_ids`: run
`clean_attributes` on an empty report, raise the accumulated errors if the
report is non-empty, otherwise `page_type.page_attributes.add(*attr_pks)`. -/
def perform_mutation (db : DB) (page_type_pk : Nat) (attr_pks : List Nat) :
    Except (List (String × ValidationError)) DB :=
  let errors := clean_attributes [] db page_type_pk attr_pks
  if errors.isEmpty then
    Except.ok { db with pageAttributes := m2m_add db.pageAttributes page_type_pk attr_pks }
  else
    Except.error errors

end PageAttributeAssign

namespace PageAttributeUnassign

/-- `PageAttributeUnassign.perform_mutation`: no validation;
`page_type.page_attributes.remove(*attr_pks)` and return the updated
page type.  The source raises no domain error on this path. -/
def perform_mutation (db : DB) (page_type_pk : Nat) (attr_pks : List Nat) :
    Except (List (String × ValidationError)) DB :=
  Except.ok { db with pageAttributes := m2m_remove db.pageAttributes page_type_pk attr_pks }

end PageAttributeUnassign

/-- The store after an assign request: the mutated store on success, the
unchanged store when the mutation raised (a validation failure leaves the
relation unchanged). -/
def assignState (db : DB) (page_type_pk : Nat) (attr_pks : List Nat) : DB :=
  match PageAttributeAssign.perform_mutation db page_type_pk attr_pks with
  | Except.ok db' => db'
  | Except.error _ => db

/-- The store after an unassign request (the mutation never raises). -/
def unassignState (db : DB) (page_type_pk : Nat) (attr_pks : List Nat) : DB :=
  match PageAttributeUnassign.perform_mutation db page_type_pk attr_pks with
  | Except.ok db' => db'
  | Except.error _ => db

/-- Sequential composition: an assign request followed by an unassign
request with the same page type and candidate list. -/
def roundTrip (db : DB) (page_type_pk : Nat) (attr_pks : List Nat) : DB :=
  unassignState (assignState db page_type_pk attr_pks) page_type_pk attr_pks

/- ### Helper lemmas -/

theorem m2m_add_cons (rel : List (Nat × Nat)) (pt pk : Nat) (pks : List Nat) :
    m2m_add rel pt (pk :: pks) =
      m2m_add (if (pt, pk) ∈ rel then rel else rel ++ [(pt, pk)]) pt pks := rfl

/-- Membership after `m2m_add` is membership before, or a freshly added
`(page type, candidate)` pair. -/
theorem mem_m2m_add (rel : List (Nat × Nat)) (pt : Nat) (pks : List Nat) (p a : Nat) :
    (p, a) ∈ m2m_add rel pt pks ↔ (p, a) ∈ rel ∨ (p = pt ∧ a ∈ pks) := by
  induction pks generalizing rel with
  | nil => simp [m2m_add]
  | cons pk pks ih =>
    rw [m2m_add_cons, ih]
    by_cases h : (pt, pk) ∈ rel
    · simp only [if_pos h, List.mem_cons]
      constructor
      · rintro (hm | ⟨hp, ha⟩)
        · exact Or.inl hm
        · exact Or.inr ⟨hp, Or.inr ha⟩
      · rintro (hm | ⟨rfl, rfl | ha⟩)
        · exact Or.inl hm
        · exact Or.inl h
        · exact Or.inr ⟨rfl, ha⟩
    · simp only [if_neg h, List.mem_append, List.mem_singleton, Prod.mk.injEq,
        List.mem_cons]
      tauto

/-- Membership after `m2m_remove` is membership before, minus the
`(page type, candidate)` pairs. -/
theorem mem_m2m_remove (rel : List (Nat × Nat)) (pt : Nat) (pks : List Nat) (p a : Nat) :
    (p, a) ∈ m2m_remove rel pt pks ↔ (p, a) ∈ rel ∧ ¬(p = pt ∧ a ∈ pks) := by
  simp only [m2m_remove, List.mem_filter, decide_eq_true_eq]

/-- The wrong-kind query is empty exactly when no existing candidate row
has a non-page kind. -/
theorem invalidAttributesOf_eq_nil (db : DB) (pks : List Nat) :
    invalidAttributesOf db pks = [] ↔
      ∀ a ∈ db.attributes, a.pk ∈ pks → a.type = AttributeType.PAGE_TYPE := by
  simp [invalidAttributesOf, List.filter_eq_nil_iff]

/-- The already-assigned query is empty exactly when no existing candidate
row is already in the page type's assignment relation. -/
theorem assignedAttrsOf_eq_nil (db : DB) (pt : Nat) (pks : List Nat) :
    assignedAttrsOf db pt pks = [] ↔
      ∀ a ∈ db.attributes, a.pk ∈ pks → (pt, a.pk) ∉ db.pageAttributes := by
  simp [assignedAttrsOf, get_assigned_page_type_attributes, List.filter_eq_nil_iff,
    List.mem_filter]

/-- `clean_attributes` is the input report extended with the (zero, one or
two) error records of the two checks, in check order. -/
theorem clean_attributes_eq (errors : List (String × ValidationError)) (db : DB)
    (pt : Nat) (pks : List Nat) :
    PageAttributeAssign.clean_attributes errors db pt pks =
      errors
        ++ (if (invalidAttributesOf db pks).isEmpty then []
            else [("attribute_ids", invalid_error db pks)])
        ++ (if (assignedAttrsOf db pt pks).isEmpty then []
            else [("attribute_ids", assigned_error db pt pks)]) := by
  unfold PageAttributeAssign.clean_attributes
  by_cases h1 : (invalidAttributesOf db pks).isEmpty <;>
    by_cases h2 : (assignedAttrsOf db pt pks).isEmpty <;>
      simp [h1, h2]

/-- An empty report passes validation exactly when both queries are empty. -/
theorem clean_attributes_nil_iff (db : DB) (pt : Nat) (pks : List Nat) :
    PageAttributeAssign.clean_attributes [] db pt pks = [] ↔
      invalidAttributesOf db pks = [] ∧ assignedAttrsOf db pt pks = [] := by
  rw [clean_attributes_eq]
  by_cases h1 : (invalidAttributesOf db pks).isEmpty <;>
    by_cases h2 : (assignedAttrsOf db pt pks).isEmpty <;>
      simp_all [List.isEmpty_iff]

/-- With an empty validation report, assign commits the `m2m_add`. -/
theorem perform_mutation_of_clean_nil (db : DB) (pt : Nat) (pks : List Nat)
    (h : PageAttributeAssign.clean_attributes [] db pt pks = []) :
    PageAttributeAssign.perform_mutation db pt pks =
      Except.ok { db with pageAttributes := m2m_add db.pageAttributes pt pks } := by
  unfold PageAttributeAssign.perform_mutation
  simp [h]

/-- With a non-empty validation report, assign raises it and commits
nothing. -/
theorem perform_mutation_of_clean_ne (db : DB) (pt : Nat) (pks : List Nat)
    (h : PageAttributeAssign.clean_attributes [] db pt pks ≠ []) :
    PageAttributeAssign.perform_mutation db pt pks =
      Except.error (PageAttributeAssign.clean_attributes [] db pt pks) := by
  unfold PageAttributeAssign.perform_mutation
  simp [List.isEmpty_eq_false.mpr h]

theorem assignState_of_error (db : DB) (pt : Nat) (pks : List Nat)
    (e : List (String × ValidationError))
    (h : PageAttributeAssign.perform_mutation db pt pks = Except.error e) :
    assignState db pt pks = db := by
  unfold assignState
  rw [h]

theorem assignState_of_ok (db db' : DB) (pt : Nat) (pks : List Nat)
    (h : PageAttributeAssign.perform_mutation db pt pks = Except.ok db') :
    assignState db pt pks = db' := by
  unfold assignState
  rw [h]

theorem unassignState_eq (db : DB) (pt : Nat) (pks : List Nat) :
    unassignState db pt pks =
      { db with pageAttributes := m2m_remove db.pageAttributes pt pks } := rfl

/-- `m2m_add` produces the old relation followed by a block of freshly
added pairs, each of the form `(page type, candidate)`. -/
theorem m2m_add_split (rel : List (Nat × Nat)) (pt : Nat) (pks : List Nat) :
    ∃ extra, m2m_add rel pt pks = rel ++ extra ∧
      ∀ x ∈ extra, x.1 = pt ∧ x.2 ∈ pks := by
  induction pks generalizing rel with
  | nil => exact ⟨[], by simp [m2m_add], by simp⟩
  | cons pk pks ih =>
    rw [m2m_add_cons]
    by_cases h : (pt, pk) ∈ rel
    · rw [if_pos h]
      obtain ⟨extra, heq, hall⟩ := ih rel
      exact ⟨extra, heq, fun x hx => ⟨(hall x hx).1, List.mem_cons_of_mem _ (hall x hx).2⟩⟩
    · rw [if_neg h]
      obtain ⟨extra, heq, hall⟩ := ih (rel ++ [(pt, pk)])
      refine ⟨(pt, pk) :: extra, by simpa using heq, fun x hx => ?_⟩
      rcases List.mem_cons.mp hx with rfl | hx'
      · exact ⟨rfl, List.mem_cons_self _ _⟩
      · exact ⟨(hall x hx').1, List.mem_cons_of_mem _ (hall x hx').2⟩

/-- Removing the candidates right after adding them restores the relation,
provided none of the `(page type, candidate)` pairs was present before. -/
theorem m2m_remove_add (rel : List (Nat × Nat)) (pt : Nat) (pks : List Nat)
    (h : ∀ a ∈ pks, (pt, a) ∉ rel) :
    m2m_remove (m2m_add rel pt pks) pt pks = rel := by
  obtain ⟨extra, heq, hall⟩ := m2m_add_split rel pt pks
  rw [heq]
  unfold m2m_remove
  rw [List.filter_append]
  have h1 : rel.filter (fun pr => decide (¬(pr.1 = pt ∧ pr.2 ∈ pks))) = rel := by
    refine List.filter_eq_self.mpr (fun x hx => ?_)
    simp only [decide_eq_true_eq]
    rintro ⟨hx1, hx2⟩
    exact h x.2 hx2 (by rwa [← hx1, Prod.mk.eta])
  have h2 : extra.filter (fun pr => decide (¬(pr.1 = pt ∧ pr.2 ∈ pks))) = [] := by
    refine List.filter_eq_nil_iff.mpr (fun x hx => ?_)
    simp only [decide_eq_true_eq, not_not]
    exact ⟨(hall x hx).1, (hall x hx).2⟩
  rw [h1, h2, List.append_nil]

/-- A wrong-kind candidate row makes the wrong-kind query non-empty. -/
theorem invalidAttributesOf_ne_nil (db : DB) (pks : List Nat)
    (h : ∃ a ∈ db.attributes, a.pk ∈ pks ∧ a.type ≠ AttributeType.PAGE_TYPE) :
    invalidAttributesOf db pks ≠ [] := by
  obtain ⟨a, ha, hpk, hty⟩ := h
  exact List.ne_nil_of_mem (List.mem_filter.mpr
    ⟨ha, by simp only [decide_eq_true_eq]; exact ⟨hpk, hty⟩⟩)

/-- An already-assigned candidate row makes the already-assigned query
non-empty. -/
theorem assignedAttrsOf_ne_nil (db : DB) (pt : Nat) (pks : List Nat)
    (h : ∃ a ∈ db.attributes, a.pk ∈ pks ∧ (pt, a.pk) ∈ db.pageAttributes) :
    assignedAttrsOf db pt pks ≠ [] := by
  obtain ⟨a, ha, hpk, hmem⟩ := h
  have hin : a ∈ assignedAttrsOf db pt pks :=
    List.mem_filter.mpr
      ⟨List.mem_filter.mpr ⟨ha, by simp only [decide_eq_true_eq]; exact hmem⟩,
       by simp only [decide_eq_true_eq]; exact hpk⟩
  exact List.ne_nil_of_mem hin

/- ### Claim theorems -/

/-- C9: calling `PageAttributeAssign.perform_mutation` with an empty
candidate identifier list succeeds with no error and returns the store
unchanged: both offending query sets are empty, so validation passes, and
adding no identities is a no-op on the assignment relation. -/
theorem C9_assign_empty_noop (db : DB) (pt : Nat) :
    PageAttributeAssign.perform_mutation db pt [] = Except.ok db := by
  have h : PageAttributeAssign.clean_attributes [] db pt [] = [] :=
    (clean_attributes_nil_iff db pt []).mpr
      ⟨by simp [invalidAttributesOf, List.filter_eq_nil_iff],
       by simp [assignedAttrsOf, List.filter_eq_nil_iff]⟩
  rw [perform_mutation_of_clean_nil db pt [] h]
  rfl

/-- C5: `PageAttributeUnassign.perform_mutation` never reports a domain
validation error: for every candidate set it succeeds, leaves the
attribute table intact, removes exactly the `(page type, candidate)`
pairs from the assignment relation (regardless of kind or membership),
and when no candidate pair was present the store is returned unchanged
(absent removal is a silent no-op). -/
theorem C5_unassign_total (db : DB) (pt : Nat) (pks : List Nat) :
    ∃ db', PageAttributeUnassign.perform_mutation db pt pks = Except.ok db' ∧
      db'.attributes = db.attributes ∧
      (∀ p a : Nat, (p, a) ∈ db'.pageAttributes ↔
        (p, a) ∈ db.pageAttributes ∧ ¬(p = pt ∧ a ∈ pks)) ∧
      ((∀ a ∈ pks, (pt, a) ∉ db.pageAttributes) → db' = db) := by
  refine ⟨_, rfl, rfl, fun p a => mem_m2m_remove db.pageAttributes pt pks p a,
    fun h => ?_⟩
  have hself : m2m_remove db.pageAttributes pt pks = db.pageAttributes := by
    refine List.filter_eq_self.mpr (fun x hx => ?_)
    simp only [decide_eq_true_eq]
    rintro ⟨h1, h2⟩
    exact h x.2 h2 (by rwa [← h1, Prod.mk.eta])
  show ({ db with pageAttributes := m2m_remove db.pageAttributes pt pks } : DB) = db
  rw [hself]

/-- Witness for C5 at a concrete store: unassigning a never-assigned
candidate succeeds and changes nothing. -/
theorem C5_unassign_total_witness :
    PageAttributeUnassign.perform_mutation ⟨[], [(0, 9)]⟩ 0 [5] =
      Except.ok ⟨[], [(0, 9)]⟩ := by
  obtain ⟨db', hok, -, -, hnoop⟩ := C5_unassign_total ⟨[], [(0, 9)]⟩ 0 [5]
  rw [hnoop (by decide)] at hok
  exact hok

/-- C7: unassign is idempotent: running it twice with the same page type
and candidates yields the same store as running it once, and neither call
reports an error. -/
theorem C7_unassign_idempotent (db : DB) (pt : Nat) (pks : List Nat) :
    unassignState (unassignState db pt pks) pt pks = unassignState db pt pks ∧
    (∃ db1, PageAttributeUnassign.perform_mutation db pt pks = Except.ok db1) ∧
    (∃ db2, PageAttributeUnassign.perform_mutation (unassignState db pt pks) pt pks =
      Except.ok db2) := by
  refine ⟨?_, ⟨_, rfl⟩, ⟨_, rfl⟩⟩
  simp only [unassignState_eq]
  have hfix : m2m_remove (m2m_remove db.pageAttributes pt pks) pt pks =
      m2m_remove db.pageAttributes pt pks := by
    unfold m2m_remove
    exact List.filter_eq_self.mpr (fun x hx => (List.mem_filter.mp hx).2)
  simp [hfix]

/-- C10: frame condition: assign and unassign for a page type and
candidate list only touch the `(that page type, candidate)` pairs; every
pair whose page type differs or whose attribute is not a candidate keeps
its membership in the relation under both operations. -/
theorem C10_frame (db : DB) (pt : Nat) (pks : List Nat) (p a : Nat)
    (h : ¬(p = pt ∧ a ∈ pks)) :
    ((p, a) ∈ (assignState db pt pks).pageAttributes ↔ (p, a) ∈ db.pageAttributes) ∧
    ((p, a) ∈ (unassignState db pt pks).pageAttributes ↔ (p, a) ∈ db.pageAttributes) := by
  constructor
  · by_cases hc : PageAttributeAssign.clean_attributes [] db pt pks = []
    · rw [assignState_of_ok db _ pt pks (perform_mutation_of_clean_nil db pt pks hc)]
      show (p, a) ∈ m2m_add db.pageAttributes pt pks ↔ (p, a) ∈ db.pageAttributes
      rw [mem_m2m_add]
      tauto
    · rw [assignState_of_error db pt pks _ (perform_mutation_of_clean_ne db pt pks hc)]
  · show (p, a) ∈ m2m_remove db.pageAttributes pt pks ↔ (p, a) ∈ db.pageAttributes
    rw [mem_m2m_remove]
    tauto

/-- C1: for every candidate list disjoint from both the wrong-kind set and
the already-assigned set, assign succeeds, keeps the attribute table, and
the resulting assignment relation is the previous relation unioned with
the `(page type, candidate)` pairs — set semantics, so duplicates within
the input collapse. -/
theorem C1_assign_success_union (db : DB) (pt : Nat) (pks : List Nat)
    (hKind : ∀ a ∈ db.attributes, a.pk ∈ pks → a.type = AttributeType.PAGE_TYPE)
    (hFresh : ∀ a ∈ db.attributes, a.pk ∈ pks → (pt, a.pk) ∉ db.pageAttributes) :
    ∃ db', PageAttributeAssign.perform_mutation db pt pks = Except.ok db' ∧
      db'.attributes = db.attributes ∧
      (∀ p a : Nat, (p, a) ∈ db'.pageAttributes ↔
        (p, a) ∈ db.pageAttributes ∨ (p = pt ∧ a ∈ pks)) := by
  have hclean : PageAttributeAssign.clean_attributes [] db pt pks = [] :=
    (clean_attributes_nil_iff db pt pks).mpr
      ⟨(invalidAttributesOf_eq_nil db pks).mpr hKind,
       (assignedAttrsOf_eq_nil db pt pks).mpr hFresh⟩
  exact ⟨_, perform_mutation_of_clean_nil db pt pks hclean, rfl,
    fun p a => mem_m2m_add db.pageAttributes pt pks p a⟩

/-- Witness for C1 at a concrete store: a fresh page-kind candidate is
unioned into the relation. -/
theorem C1_assign_success_union_witness :
    ∃ db', PageAttributeAssign.perform_mutation
        ⟨[⟨1, AttributeType.PAGE_TYPE⟩, ⟨2, AttributeType.PAGE_TYPE⟩], [(0, 1)]⟩ 0 [2] =
      Except.ok db' ∧
      db'.attributes = [⟨1, AttributeType.PAGE_TYPE⟩, ⟨2, AttributeType.PAGE_TYPE⟩] ∧
      (∀ p a : Nat, (p, a) ∈ db'.pageAttributes ↔
        (p, a) ∈ ([(0, 1)] : List (Nat × Nat)) ∨ (p = 0 ∧ a ∈ [2])) :=
  C1_assign_success_union
    ⟨[⟨1, AttributeType.PAGE_TYPE⟩, ⟨2, AttributeType.PAGE_TYPE⟩], [(0, 1)]⟩ 0 [2]
    (by decide) (by decide)

/-- C2: a candidate list containing at least one existing wrong-kind
attribute makes assign raise the accumulated report without mutating the
store, and that report holds exactly one `INVALID` error, under key
`attribute_ids`, whose message is "Only page attributes can be assigned."
and whose identifier list is exactly the re-encoded wrong-kind rows. -/
theorem C2_assign_wrong_kind_fails (db : DB) (pt : Nat) (pks : List Nat)
    (h : ∃ a ∈ db.attributes, a.pk ∈ pks ∧ a.type ≠ AttributeType.PAGE_TYPE) :
    PageAttributeAssign.perform_mutation db pt pks =
      Except.error (PageAttributeAssign.clean_attributes [] db pt pks) ∧
    assignState db pt pks = db ∧
    (PageAttributeAssign.clean_attributes [] db pt pks).filter
        (fun e => decide (e.2.code = PageErrorCode.INVALID)) =
      [("attribute_ids",
        { message := "Only page attributes can be assigned.",
          code := PageErrorCode.INVALID,
          attributes := (invalidAttributesOf db pks).map
            (fun a => to_global_id "Attribute" a.pk) })] := by
  have hne := invalidAttributesOf_ne_nil db pks h
  have hclean_ne : PageAttributeAssign.clean_attributes [] db pt pks ≠ [] :=
    fun hc => hne ((clean_attributes_nil_iff db pt pks).mp hc).1
  refine ⟨perform_mutation_of_clean_ne db pt pks hclean_ne,
    assignState_of_error db pt pks _ (perform_mutation_of_clean_ne db pt pks hclean_ne),
    ?_⟩
  have hInvE : (invalidAttributesOf db pks).isEmpty = false :=
    List.isEmpty_eq_false.mpr hne
  rw [clean_attributes_eq]
  by_cases hA : (assignedAttrsOf db pt pks).isEmpty <;>
    simp [hInvE, hA, invalid_error, assigned_error]

/-- Witness for C2 at a concrete store: a product-kind candidate is
rejected with the single `INVALID` error. -/
theorem C2_assign_wrong_kind_fails_witness :
    PageAttributeAssign.perform_mutation ⟨[⟨3, AttributeType.PRODUCT_TYPE⟩], []⟩ 0 [3] =
      Except.error [("attribute_ids",
        { message := "Only page attributes can be assigned.",
          code := PageErrorCode.INVALID,
          attributes := [to_global_id "Attribute" 3] })] := by
  have h := C2_assign_wrong_kind_fails ⟨[⟨3, AttributeType.PRODUCT_TYPE⟩], []⟩ 0 [3]
    ⟨⟨3, AttributeType.PRODUCT_TYPE⟩, by decide, by decide, by decide⟩
  rw [h.1]
  rfl

/-- C3: a candidate list containing at least one attribute already in the
page type's assignment relation makes assign raise the accumulated report
without mutating the store, and that report holds exactly one
`ATTRIBUTE_ALREADY_ASSIGNED` error, under key `attribute_ids`, listing
exactly the re-encoded already-assigned rows. -/
theorem C3_assign_already_assigned_fails (db : DB) (pt : Nat) (pks : List Nat)
    (h : ∃ a ∈ db.attributes, a.pk ∈ pks ∧ (pt, a.pk) ∈ db.pageAttributes) :
    PageAttributeAssign.perform_mutation db pt pks =
      Except.error (PageAttributeAssign.clean_attributes [] db pt pks) ∧
    assignState db pt pks = db ∧
    (PageAttributeAssign.clean_attributes [] db pt pks).filter
        (fun e => decide (e.2.code = PageErrorCode.ATTRIBUTE_ALREADY_ASSIGNED)) =
      [("attribute_ids",
        { message := "Some of the attributes have been already assigned to this page type.",
          code := PageErrorCode.ATTRIBUTE_ALREADY_ASSIGNED,
          attributes := (assignedAttrsOf db pt pks).map
            (fun a => to_global_id "Attribute" a.pk) })] := by
  have hne := assignedAttrsOf_ne_nil db pt pks h
  have hclean_ne : PageAttributeAssign.clean_attributes [] db pt pks ≠ [] :=
    fun hc => hne ((clean_attributes_nil_iff db pt pks).mp hc).2
  refine ⟨perform_mutation_of_clean_ne db pt pks hclean_ne,
    assignState_of_error db pt pks _ (perform_mutation_of_clean_ne db pt pks hclean_ne),
    ?_⟩
  have hAssE : (assignedAttrsOf db pt pks).isEmpty = false :=
    List.isEmpty_eq_false.mpr hne
  rw [clean_attributes_eq]
  by_cases hI : (invalidAttributesOf db pks).isEmpty <;>
    simp [hAssE, hI, invalid_error, assigned_error]

/-- Witness for C3 at a concrete store: a candidate already assigned to
the page type is rejected with the single `ATTRIBUTE_ALREADY_ASSIGNED`
error. -/
theorem C3_assign_already_assigned_fails_witness :
    PageAttributeAssign.perform_mutation ⟨[⟨1, AttributeType.PAGE_TYPE⟩], [(0, 1)]⟩ 0 [1] =
      Except.error [("attribute_ids",
        { message := "Some of the attributes have been already assigned to this page type.",
          code := PageErrorCode.ATTRIBUTE_ALREADY_ASSIGNED,
          attributes := [to_global_id "Attribute" 1] })] := by
  have h := C3_assign_already_assigned_fails ⟨[⟨1, AttributeType.PAGE_TYPE⟩], [(0, 1)]⟩ 0 [1]
    ⟨⟨1, AttributeType.PAGE_TYPE⟩, by decide, by decide, by decide⟩
  rw [h.1]
  rfl

/-- C4: the two validation checks are not short-circuited: when both
offending sets are non-empty the single raised report holds both error
records, in check order, both under key `attribute_ids`; and an attribute
that is simultaneously wrong-kind and already assigned has its re-encoded
identifier listed in both errors. -/
theorem C4_both_errors (db : DB) (pt : Nat) (pks : List Nat)
    (h1 : ∃ a ∈ db.attributes, a.pk ∈ pks ∧ a.type ≠ AttributeType.PAGE_TYPE)
    (h2 : ∃ a ∈ db.attributes, a.pk ∈ pks ∧ (pt, a.pk) ∈ db.pageAttributes) :
    PageAttributeAssign.clean_attributes [] db pt pks =
      [("attribute_ids", invalid_error db pks),
       ("attribute_ids", assigned_error db pt pks)] ∧
    PageAttributeAssign.perform_mutation db pt pks =
      Except.error
        [("attribute_ids", invalid_error db pks),
         ("attribute_ids", assigned_error db pt pks)] ∧
    (∀ a ∈ db.attributes, a.pk ∈ pks → a.type ≠ AttributeType.PAGE_TYPE →
      (pt, a.pk) ∈ db.pageAttributes →
        to_global_id "Attribute" a.pk ∈ (invalid_error db pks).attributes ∧
        to_global_id "Attribute" a.pk ∈ (assigned_error db pt pks).attributes) := by
  have hInvE : (invalidAttributesOf db pks).isEmpty = false :=
    List.isEmpty_eq_false.mpr (invalidAttributesOf_ne_nil db pks h1)
  have hAssE : (assignedAttrsOf db pt pks).isEmpty = false :=
    List.isEmpty_eq_false.mpr (assignedAttrsOf_ne_nil db pt pks h2)
  have hclean : PageAttributeAssign.clean_attributes [] db pt pks =
      [("attribute_ids", invalid_error db pks),
       ("attribute_ids", assigned_error db pt pks)] := by
    rw [clean_attributes_eq]
    simp [hInvE, hAssE]
  refine ⟨hclean, ?_, ?_⟩
  · rw [perform_mutation_of_clean_ne db pt pks (by rw [hclean]; exact fun hc => by cases hc),
      hclean]
  · intro a ha hpk hty hmem
    constructor
    · have : a ∈ invalidAttributesOf db pks :=
        List.mem_filter.mpr ⟨ha, by simp only [decide_eq_true_eq]; exact ⟨hpk, hty⟩⟩
      simpa [invalid_error] using List.mem_map_of_mem _ this
    · have : a ∈ assignedAttrsOf db pt pks :=
        List.mem_filter.mpr
          ⟨List.mem_filter.mpr ⟨ha, by simp only [decide_eq_true_eq]; exact hmem⟩,
           by simp only [decide_eq_true_eq]; exact hpk⟩
      simpa [assigned_error] using List.mem_map_of_mem _ this

/-- Witness for C4 at a concrete store: one wrong-kind candidate and one
already-assigned candidate produce both errors in one report. -/
theorem C4_both_errors_witness :
    PageAttributeAssign.clean_attributes []
        ⟨[⟨3, AttributeType.PRODUCT_TYPE⟩, ⟨1, AttributeType.PAGE_TYPE⟩], [(0, 1)]⟩ 0 [1, 3] =
      [("attribute_ids", invalid_error
          ⟨[⟨3, AttributeType.PRODUCT_TYPE⟩, ⟨1, AttributeType.PAGE_TYPE⟩], [(0, 1)]⟩ [1, 3]),
       ("attribute_ids", assigned_error
          ⟨[⟨3, AttributeType.PRODUCT_TYPE⟩, ⟨1, AttributeType.PAGE_TYPE⟩], [(0, 1)]⟩ 0 [1, 3])] :=
  (C4_both_errors
    ⟨[⟨3, AttributeType.PRODUCT_TYPE⟩, ⟨1, AttributeType.PAGE_TYPE⟩], [(0, 1)]⟩ 0 [1, 3]
    ⟨⟨3, AttributeType.PRODUCT_TYPE⟩, by decide, by decide, by decide⟩
    ⟨⟨1, AttributeType.PAGE_TYPE⟩, by decide, by decide, by decide⟩).1

/-- Counterexample to C6 as stated: page type `0` already has page-kind
attribute `1` assigned, so the candidate list `[1]` has no kind mismatch;
assign raises `ATTRIBUTE_ALREADY_ASSIGNED` and leaves the relation at
`[(0, 1)]`, but the following unassign still removes the pair, so the
round trip ends at `[]`, not the original relation. -/
theorem C6_roundTrip_counterexample :
    (∀ a ∈ (⟨[⟨1, AttributeType.PAGE_TYPE⟩], [(0, 1)]⟩ : DB).attributes,
        a.pk ∈ [1] → a.type = AttributeType.PAGE_TYPE) ∧
    (roundTrip ⟨[⟨1, AttributeType.PAGE_TYPE⟩], [(0, 1)]⟩ 0 [1]).pageAttributes ≠
      (⟨[⟨1, AttributeType.PAGE_TYPE⟩], [(0, 1)]⟩ : DB).pageAttributes := by
  constructor <;> decide

/-- C6 (amended): for every page type and candidate list with no kind
mismatch and no candidate already present in the target's assignment
relation, assign followed by unassign with the same candidates restores
the store to its original value. -/
theorem C6_roundTrip_restores (db : DB) (pt : Nat) (pks : List Nat)
    (hKind : ∀ a ∈ db.attributes, a.pk ∈ pks → a.type = AttributeType.PAGE_TYPE)
    (hFresh : ∀ a ∈ pks, (pt, a) ∉ db.pageAttributes) :
    roundTrip db pt pks = db := by
  have hFresh' : ∀ a ∈ db.attributes, a.pk ∈ pks → (pt, a.pk) ∉ db.pageAttributes :=
    fun a _ hpk => hFresh a.pk hpk
  have hclean : PageAttributeAssign.clean_attributes [] db pt pks = [] :=
    (clean_attributes_nil_iff db pt pks).mpr
      ⟨(invalidAttributesOf_eq_nil db pks).mpr hKind,
       (assignedAttrsOf_eq_nil db pt pks).mpr hFresh'⟩
  unfold roundTrip
  rw [assignState_of_ok db _ pt pks (perform_mutation_of_clean_nil db pt pks hclean),
    unassignState_eq]
  simp [m2m_remove_add db.pageAttributes pt pks hFresh]

/-- Witness for the amended C6 at a concrete store: assigning then
unassigning the fresh page-kind candidate `2` restores the store. -/
theorem C6_roundTrip_restores_witness :
    roundTrip ⟨[⟨1, AttributeType.PAGE_TYPE⟩], [(0, 1)]⟩ 0 [2] =
      ⟨[⟨1, AttributeType.PAGE_TYPE⟩], [(0, 1)]⟩ :=
  C6_roundTrip_restores ⟨[⟨1, AttributeType.PAGE_TYPE⟩], [(0, 1)]⟩ 0 [2]
    (by decide) (by decide)

/-- C8: a candidate key matching no row of the attribute table produces no
validation error: both queries range over existing rows only, so the
report is the same as for the candidate list with that key dropped, and
when the rest of validation passes assign proceeds and the `(page type,
key)` pair reaches the relation mutation. -/
theorem C8_nonexistent_pk_no_error (db : DB) (pt : Nat) (pks : List Nat) (pk : Nat)
    (h : ∀ a ∈ db.attributes, a.pk ≠ pk) :
    (∀ errors, PageAttributeAssign.clean_attributes errors db pt pks =
      PageAttributeAssign.clean_attributes errors db pt
        (pks.filter (fun x => decide (x ≠ pk)))) ∧
    (PageAttributeAssign.clean_attributes [] db pt pks = [] → pk ∈ pks →
      ∃ db', PageAttributeAssign.perform_mutation db pt pks = Except.ok db' ∧
        (pt, pk) ∈ db'.pageAttributes) := by
  have hmemiff : ∀ a ∈ db.attributes,
      (a.pk ∈ pks.filter (fun x => decide (x ≠ pk)) ↔ a.pk ∈ pks) := by
    intro a ha
    rw [List.mem_filter]
    simp [h a ha]
  have hInv : invalidAttributesOf db (pks.filter (fun x => decide (x ≠ pk))) =
      invalidAttributesOf db pks := by
    apply List.filter_congr
    intro a ha
    rw [decide_eq_decide]
    have := hmemiff a ha
    tauto
  have hAss : assignedAttrsOf db pt (pks.filter (fun x => decide (x ≠ pk))) =
      assignedAttrsOf db pt pks := by
    apply List.filter_congr
    intro a ha
    rw [decide_eq_decide]
    exact hmemiff a (List.mem_filter.mp ha).1
  have hIE : invalid_error db (pks.filter (fun x => decide (x ≠ pk))) =
      invalid_error db pks := by
    unfold invalid_error
    rw [hInv]
  have hAE : assigned_error db pt (pks.filter (fun x => decide (x ≠ pk))) =
      assigned_error db pt pks := by
    unfold assigned_error
    rw [hAss]
  constructor
  · intro errors
    rw [clean_attributes_eq, clean_attributes_eq, hInv, hAss, hIE, hAE]
  · intro hclean hpk
    exact ⟨_, perform_mutation_of_clean_nil db pt pks hclean,
      (mem_m2m_add db.pageAttributes pt pks pt pk).mpr (Or.inr ⟨rfl, hpk⟩)⟩

/-- Witness for C8 at a concrete store: with an empty attribute table the
nonexistent key `7` passes validation and its pair is added. -/
theorem C8_nonexistent_pk_no_error_witness :
    ∃ db', PageAttributeAssign.perform_mutation ⟨[], []⟩ 0 [7] = Except.ok db' ∧
      (0, 7) ∈ db'.pageAttributes :=
  (C8_nonexistent_pk_no_error ⟨[], []⟩ 0 [7] 7 (by decide)).2 (by rfl) (by decide)

/-- Witness for C10 at a concrete store: the pair `(0, 1)` survives both
operations aimed at candidate `2`. -/
theorem C10_frame_witness :
    ((0, 1) ∈ (assignState ⟨[⟨1, AttributeType.PAGE_TYPE⟩], [(0, 1)]⟩ 0 [2]).pageAttributes ↔
      (0, 1) ∈ ([(0, 1)] : List (Nat × Nat))) ∧
    ((0, 1) ∈ (unassignState ⟨[⟨1, AttributeType.PAGE_TYPE⟩], [(0, 1)]⟩ 0 [2]).pageAttributes ↔
      (0, 1) ∈ ([(0, 1)] : List (Nat × Nat))) :=
  C10_frame ⟨[⟨1, AttributeType.PAGE_TYPE⟩], [(0, 1)]⟩ 0 [2] 0 1 (by decide)

end Saleor
